import Mathlib

namespace GodotMcp

/-!
# Verification of the minimal-godot-mcp dual-protocol client core

Shallow embedding of the TypeScript sources of the `minimal-godot-mcp`
repository (LSP/DAP client core) and proofs about them.

Conventions used throughout:
* JavaScript strings are modelled by Lean `String` (a list of Unicode
  codepoints); `jsStringLength` models JS `String.prototype.length`
  (UTF-16 code-unit count) and `nodeByteLength` models Node's
  `Buffer.byteLength(s)` (UTF-8 byte count).
* Methods of a stateful class become functions `State → args → State`
  (plus emitted observable effects where relevant).
* TypeScript `throw` is modelled by `Except String`.
-/

/-! ## JS string primitives

`jsStringLength` models `s.length` of a JS string: the number of UTF-16
code units (codepoints below 0x10000 take one unit, the rest two).
`nodeByteLength` models `Buffer.byteLength(s)`: the UTF-8 byte size
(1, 2, 3 or 4 bytes per codepoint by the standard ranges). -/

def utf16Width (c : Char) : Nat :=
  if c.toNat < 0x10000 then 1 else 2

def jsStringLength (s : String) : Nat :=
  (s.data.map utf16Width).sum

def utf8Width (c : Char) : Nat :=
  if c.toNat < 0x80 then 1
  else if c.toNat < 0x800 then 2
  else if c.toNat < 0x10000 then 3
  else 4

def nodeByteLength (s : String) : Nat :=
  (s.data.map utf8Width).sum

/-- JS `s.startsWith(p)`, modelled at codepoint level. -/
def jsStartsWith (s p : String) : Bool :=
  p.data.isPrefixOf s.data

/-- JS `s.endsWith(p)`, modelled at codepoint level. -/
def jsEndsWith (s p : String) : Bool :=
  p.data.isSuffixOf s.data

/-! ## Wire framing (`sendMessage` of both clients)

`src/lsp-client.ts` (`LSPClient.sendMessage`):
```ts
const content = JSON.stringify(message);
const header = `Content-Length: ${content.length}\x7br\x7dn\x7br\x7dn`;
this.socket.write(header + content);
```
`dap-client.ts` (`DAPClient.sendMessage`):
```ts
const content = JSON.stringify(message);
const header = `Content-Length: ${Buffer.byteLength(content)}\x7br\x7dn\x7br\x7dn`;
this.socket.write(header + content);
```
The serialized JSON payload is taken as an arbitrary string. -/

def lspContentLength (content : String) : Nat := jsStringLength content

def dapContentLength (content : String) : Nat := nodeByteLength content

def lspWireMessage (content : String) : String :=
  "Content-Length: " ++ toString (lspContentLength content) ++ "\r\n\r\n" ++ content

def dapWireMessage (content : String) : String :=
  "Content-Length: " ++ toString (dapContentLength content) ++ "\r\n\r\n" ++ content

/-! ## Diagnostics (`src/diagnostics.ts`)

Data model from `types.ts`: an LSP diagnostic carries a 0-indexed
`range.start` position, an optional numeric severity (the wire value is a
plain JSON number, so it is modelled as `Option Nat` rather than the
four-element enum), an optional `code` that is a string or a number, and a
message.  The normalized MCP diagnostic is 1-indexed with an enumerated
severity. -/

inductive DiagnosticSeverity where
  | error
  | warning
  | info
  deriving DecidableEq, Repr

structure LSPPosition where
  line : Nat
  character : Nat
  deriving DecidableEq, Repr

structure LSPRange where
  start : LSPPosition
  «end» : LSPPosition
  deriving DecidableEq, Repr

/-- `code?: string | number` on the wire. -/
inductive LSPCode where
  | str (s : String)
  | num (n : Int)
  deriving DecidableEq, Repr

structure LSPDiagnostic where
  range : LSPRange
  severity : Option Nat
  code : Option LSPCode
  source : Option String
  message : String
  deriving DecidableEq, Repr

structure Diagnostic where
  line : Nat
  column : Nat
  severity : DiagnosticSeverity
  message : String
  code : Option String
  deriving DecidableEq, Repr

/-- JS `code?.toString()`. -/
def codeToString : LSPCode → String
  | .str s => s
  | .num n => toString n

/-- `convertSeverity` from `src/diagnostics.ts`: a `switch` over the
`LSPDiagnosticSeverity` enum values (1 Error, 2 Warning, 3 Information,
4 Hint) whose `default` case (missing or unknown severity) yields
`'error'`. -/
def convertSeverity : Option Nat → DiagnosticSeverity
  | some 1 => .error
  | some 2 => .warning
  | some 3 => .info
  | some 4 => .info
  | _ => .error

/-- `transformDiagnostic` from `src/diagnostics.ts`. -/
def transformDiagnostic (lspDiag : LSPDiagnostic) : Diagnostic :=
  { line := lspDiag.range.start.line + 1
    column := lspDiag.range.start.character + 1
    severity := convertSeverity lspDiag.severity
    message := lspDiag.message
    code := lspDiag.code.map codeToString }

/-- `transformDiagnostics` from `src/diagnostics.ts`. -/
def transformDiagnostics (lspDiags : List LSPDiagnostic) : List Diagnostic :=
  lspDiags.map transformDiagnostic

/-! ### Diagnostic cache (`DiagnosticCache` in `src/diagnostics.ts`)

A JS `Map<string, Diagnostic[]>`, modelled as an insertion-ordered
association list: `set` on an existing key replaces its value in place,
`set` on a new key appends. -/

abbrev DiagCache := List (String × List Diagnostic)

def cacheSet (cache : DiagCache) (path : String) (ds : List Diagnostic) :
    DiagCache :=
  if cache.any (·.1 = path) then
    cache.map (fun e => if e.1 = path then (path, ds) else e)
  else
    cache ++ [(path, ds)]

def cacheGet (cache : DiagCache) (path : String) : List Diagnostic :=
  match cache.find? (·.1 = path) with
  | some e => e.2
  | none => []

def cacheClearAll : DiagCache := []

/-- `getAll`: the snapshot as a record keyed by path. -/
def cacheGetAll (cache : DiagCache) : DiagCache := cache

/-! ## Console ring buffer (`ConsoleManager` in `console-manager.ts`) -/

inductive DAPOutputCategory where
  | console
  | stdout
  | stderr
  deriving DecidableEq, Repr

/-- `DAPOutputEventBody`: `{ category, output, source?: {name?, path?}, line? }`. -/
structure DAPOutputEventBody where
  category : DAPOutputCategory
  output : String
  sourceName : Option String
  sourcePath : Option String
  line : Option Nat
  deriving DecidableEq, Repr

structure ConsoleOutput where
  timestamp : Nat
  category : DAPOutputCategory
  message : String
  source : Option String
  line : Option Nat
  deriving DecidableEq, Repr

structure ConsoleManager where
  buffer : List ConsoleOutput
  maxSize : Nat
  deriving Repr

/-- JS `parseInt(s, 10)`: skip leading whitespace, optional sign, then the
maximal leading run of decimal digits; `NaN` (here `none`) if that run is
empty. -/
def jsParseInt (s : String) : Option Int :=
  let cs := s.data.dropWhile (fun c => c = ' ' ∨ c = '\t' ∨ c = '\n' ∨ c = '\r')
  let (neg, cs) := match cs with
    | '-' :: rest => (true, rest)
    | '+' :: rest => (false, rest)
    | rest => (false, rest)
  let digits := cs.takeWhile (·.isDigit)
  if digits.isEmpty then none
  else
    let n := digits.foldl (fun acc c => acc * 10 + (c.toNat - '0'.toNat)) 0
    some (if neg then -(n : Int) else (n : Int))

/-- The `ConsoleManager` constructor: `GODOT_DAP_BUFFER_SIZE` (when set and
non-empty) wins if it parses to a positive integer, else 1000; otherwise the
`maxSize` argument, defaulting to 1000. -/
def consoleManagerInit (envSize : Option String) (maxSize? : Option Nat) :
    ConsoleManager :=
  { buffer := []
    maxSize :=
      match envSize with
      | some s =>
          if s ≠ "" then
            match jsParseInt s with
            | some n => if n > 0 then n.toNat else 1000
            | none => 1000
          else maxSize?.getD 1000
      | none => maxSize?.getD 1000 }

/-- `addOutput`: append a timestamped entry, then drop the oldest entry if
the buffer exceeds `maxSize` (`this.buffer.shift()`).  `Date.now()` is
passed in as `now`; `source` prefers `event.source?.path` over
`event.source?.name`. -/
def addOutput (m : ConsoleManager) (event : DAPOutputEventBody) (now : Nat) :
    ConsoleManager :=
  let entry : ConsoleOutput :=
    { timestamp := now
      category := event.category
      message := event.output
      source := event.sourcePath <|> event.sourceName
      line := event.line }
  let b := m.buffer ++ [entry]
  { m with buffer := if b.length > m.maxSize then b.tail else b }

structure ConsoleOutputFilter where
  limit : Option Int
  category : Option DAPOutputCategory
  since : Option Int
  deriving Repr

/-- `getOutput`: category equality filter, then `timestamp >= since` when
`since` is defined and positive, then `slice(-limit)` when `limit` is
defined and positive. -/
def getOutput (m : ConsoleManager) (options : ConsoleOutputFilter) :
    List ConsoleOutput :=
  let r1 := match options.category with
    | some c => m.buffer.filter (fun e => e.category = c)
    | none => m.buffer
  let r2 := match options.since with
    | some t => if t > 0 then r1.filter (fun e => (e.timestamp : Int) ≥ t) else r1
    | none => r1
  match options.limit with
  | some n => if n > 0 then r2.drop (r2.length - n.toNat) else r2
  | none => r2

def consoleClear (m : ConsoleManager) : ConsoleManager := { m with buffer := [] }

def consoleSize (m : ConsoleManager) : Nat := m.buffer.length

/-! ## POSIX path resolution (Node `path.resolve` / `path.relative`)

`DiagnosticsManager.getFileDiagnostics` validates paths with
```ts
const normalizedPath = resolve(filePath);
const relativePath = relative(workspace, normalizedPath);
if (relativePath.startsWith('..') || !relativePath) throw ...
```
We model the POSIX variants: `resolve` of an absolute path normalizes it
(`.` dropped, `..` pops a segment, `..` above the root is dropped); of a
relative path it first prepends the working directory.  `relative(from, to)`
resolves both, strips the longest common segment prefix and emits one `..`
per remaining `from` segment followed by the remaining `to` segments. -/

def isAbsolutePath (s : String) : Bool :=
  match s.data with
  | '/' :: _ => true
  | _ => false

def splitSegsAux : List Char → List Char → List String
  | [], acc => [String.mk acc.reverse]
  | '/' :: rest, acc => String.mk acc.reverse :: splitSegsAux rest []
  | c :: rest, acc => splitSegsAux rest (c :: acc)

/-- Split on `'/'` (empty segments are kept here and dropped during
normalization). -/
def rawSegs (s : String) : List String := splitSegsAux s.data []

def normStep (acc : List String) (s : String) : List String :=
  if s = "" ∨ s = "." then acc
  else if s = ".." then acc.dropLast
  else acc ++ [s]

def normSegs (segs : List String) : List String := segs.foldl normStep []

/-- `path.resolve(p)` relative to working directory `cwd` (itself absolute),
as the list of path segments below the root. -/
def resolveSegs (cwd p : String) : List String :=
  if isAbsolutePath p then normSegs (rawSegs p)
  else normSegs (rawSegs cwd ++ rawSegs p)

def commonPrefixLen : List String → List String → Nat
  | a :: as, b :: bs => if a = b then commonPrefixLen as bs + 1 else 0
  | _, _ => 0

def relSegs (fromSegs toSegs : List String) : List String :=
  let c := commonPrefixLen fromSegs toSegs
  List.replicate (fromSegs.length - c) ".." ++ toSegs.drop c

def joinSegs : List String → String
  | [] => ""
  | a :: rest =>
      match rest with
      | [] => a
      | _ => a ++ "/" ++ joinSegs rest

/-- `path.relative(from, to)` on already-resolved segment lists. -/
def nodeRelative (fromSegs toSegs : List String) : String :=
  joinSegs (relSegs fromSegs toSegs)

/-- The absolute path string a resolved segment list denotes. -/
def pathToString (segs : List String) : String := "/" ++ joinSegs segs

/-- The path-inside-workspace check of `getFileDiagnostics`, `true` when the
path is accepted.  `cwd` resolves relative paths. -/
def validateWorkspacePath (cwd workspace filePath : String) : Bool :=
  let np := resolveSegs cwd filePath
  let rel := nodeRelative (resolveSegs cwd workspace) np
  !(jsStartsWith rel ".." || rel == "")

/-- The canonicalized path lies inside the workspace root: the resolved
workspace segments are a prefix of the resolved path segments. -/
def insideWorkspace (cwd workspace filePath : String) : Bool :=
  (resolveSegs cwd workspace).isPrefixOf (resolveSegs cwd filePath)

/-! ## DiagnosticsManager (`part_006`) and the tool layer -/

def WORKSPACE_NOT_FOUND_ERROR : String :=
  "Workspace not found. Auto-detects if running from project root, otherwise set GODOT_WORKSPACE_PATH:\n\x7b\n  \"mcpServers\": \x7b\n    \"godot\": \x7b\n      \"env\": \x7b \"GODOT_WORKSPACE_PATH\": \"/absolute/path/to/godot/project\" \x7d\n    \x7d\n  \x7d\n\x7d"

def LSP_NOT_RUNNING_ERROR : String :=
  "Godot LSP is not running. Start Godot with your project:\n  CLI: godot --editor --path /path/to/project\n  GUI: Open the project in Godot Editor\nLSP must be enabled in Project > Project Settings > Network > Language Server"

def NO_DEBUG_SESSION_ERROR : String :=
  "No active debug session. Start a scene in Godot (F5 or Play button) to capture console output."

/-- `DiagnosticsManager.getFileDiagnostics` (after workspace
auto-detection): workspace-set check, then path validation, then the file
read, then `openFile` (during whose grace period the peer may publish
diagnostics for the file, cached by `handlePublishDiagnostics`), then
`getDiagnostics` reads the cache.  `fs` models the file system (`none` =
read fails), `publish` the diagnostics the peer pushes for the opened file
within the grace period (`none` = no publish), `cache` the LSP client's
diagnostic cache.  Returns the updated cache and the diagnostics list. -/
def getFileDiagnostics (cwd : String) (workspacePath : Option String)
    (fs : String → Option String) (publish : Option (List Diagnostic))
    (cache : DiagCache) (filePath : String) :
    Except String (DiagCache × List Diagnostic) :=
  match workspacePath with
  | none => .error WORKSPACE_NOT_FOUND_ERROR
  | some workspace =>
      let np := resolveSegs cwd filePath
      let rel := nodeRelative (resolveSegs cwd workspace) np
      if jsStartsWith rel ".." || rel == "" then
        .error ("File path must be within workspace: " ++ filePath)
      else
        let npStr := pathToString np
        match fs npStr with
        | none => .error ("Cannot read file " ++ filePath ++ ": read failed")
        | some _content =>
            let cache' := match publish with
              | some ds => cacheSet cache npStr ds
              | none => cache
            .ok (cache', cacheGet cache' npStr)

/-- `DiagnosticsManager.scanWorkspace` (after workspace auto-detection):
drives every discovered file through `getFileDiagnostics`, catching and
logging per-file failures, then returns the LSP client's full cache
snapshot.  `files` is the `fast-glob` result (batching and inter-batch
delays do not affect the final cache).  `publish` gives the peer's
published diagnostics per raw file path. -/
def scanWorkspace (cwd : String) (workspacePath : Option String)
    (fs : String → Option String)
    (publish : String → Option (List Diagnostic))
    (cache : DiagCache) (files : List String) : Except String DiagCache :=
  match workspacePath with
  | none => .error WORKSPACE_NOT_FOUND_ERROR
  | some _ =>
      .ok (cacheGetAll (files.foldl (fun c f =>
        match getFileDiagnostics cwd workspacePath fs (publish f) c f with
        | .ok (c', _) => c'
        | .error _ => c) cache))

/-! ## Tool layer (`tools/*.ts`)

Thrown exceptions are the `.error` branch of `Except`; a successful return
value is `.ok`. -/

structure GetDiagnosticsOutput where
  diagnostics : DiagCache
  error : Option String
  deriving DecidableEq, Repr

/-- `getDiagnostics` from `tools/get-diagnostics.ts`: input validation
(`file_path` present and ending in `.gd`) happens before the connectivity
check; a disconnected session yields the empty-diagnostics result carrying
`LSP_NOT_RUNNING_ERROR`.  `filePath = none` models a missing or empty
`file_path` (both falsy in JS). -/
def getDiagnosticsTool (cwd : String) (workspacePath : Option String)
    (fs : String → Option String) (publish : Option (List Diagnostic))
    (cache : DiagCache) (isConnected : Bool) (filePath : Option String) :
    Except String GetDiagnosticsOutput :=
  match filePath with
  | none =>
      .error "file_path is required. Use scan_workspace_diagnostics for workspace-wide checks."
  | some fp =>
      if ¬ jsEndsWith fp ".gd" then
        .error "file_path must be a .gd file"
      else if ¬ isConnected then
        .ok { diagnostics := [], error := some LSP_NOT_RUNNING_ERROR }
      else
        match getFileDiagnostics cwd workspacePath fs publish cache fp with
        | .error e => .error e
        | .ok (_, ds) => .ok { diagnostics := [(fp, ds)], error := none }

structure ScanWorkspaceOutput where
  files_scanned : Nat
  files_with_issues : Nat
  diagnostics : DiagCache
  error : Option String
  deriving DecidableEq, Repr

/-- `scanWorkspaceDiagnostics` from `tools/scan-workspace-diagnostics.ts`:
a disconnected session yields zero counters, an empty map and the guidance
string; otherwise `files_scanned = Object.keys(diagnostics).length` and
`files_with_issues` counts the entries with a non-empty list.
(`scan_time_seconds` is wall-clock time and is not modelled.) -/
def scanWorkspaceDiagnosticsTool (cwd : String) (workspacePath : Option String)
    (fs : String → Option String)
    (publish : String → Option (List Diagnostic))
    (cache : DiagCache) (files : List String) (isConnected : Bool) :
    Except String ScanWorkspaceOutput :=
  if ¬ isConnected then
    .ok { files_scanned := 0, files_with_issues := 0, diagnostics := [],
          error := some LSP_NOT_RUNNING_ERROR }
  else
    match scanWorkspace cwd workspacePath fs publish cache files with
    | .error e => .error e
    | .ok diags =>
        .ok { files_scanned := diags.length
              files_with_issues := (diags.filter (fun e => e.2 ≠ [])).length
              diagnostics := diags
              error := none }

structure GetConsoleOutputOutput where
  entries : List ConsoleOutput
  total_buffered : Nat
  error : Option String
  deriving DecidableEq, Repr

/-- The runtime tool input: `category` arrives as an arbitrary string and is
checked against the valid categories. -/
structure GetConsoleOutputInput where
  limit : Option Int
  category : Option String
  since : Option Int
  deriving DecidableEq, Repr

def parseCategory : String → Option DAPOutputCategory
  | "console" => some .console
  | "stdout" => some .stdout
  | "stderr" => some .stderr
  | _ => none

/-- `getConsoleOutput` from `tools/get-console-output.ts`: the
disconnected-session early return (empty entries, `total_buffered: 0`,
guidance string) comes before any input validation; then invalid category,
negative limit and negative since throw; then the filtered entries and the
true buffer occupancy are returned. -/
def getConsoleOutputTool (m : ConsoleManager) (isDAPConnected : Bool)
    (input : GetConsoleOutputInput) : Except String GetConsoleOutputOutput :=
  if ¬ isDAPConnected then
    .ok { entries := [], total_buffered := 0, error := some NO_DEBUG_SESSION_ERROR }
  else
    match input.category.map (fun c => (c, parseCategory c)) with
    | some (c, none) =>
        .error ("Invalid category: " ++ c ++ ". Must be one of: console, stdout, stderr")
    | _ =>
        if input.limit.any (· < 0) then
          .error "limit must be a non-negative number"
        else if input.since.any (· < 0) then
          .error "since must be a non-negative timestamp"
        else
          .ok { entries := getOutput m
                  { limit := input.limit
                    category := input.category.bind parseCategory
                    since := input.since }
                total_buffered := consoleSize m
                error := none }

structure ClearConsoleOutputOutput where
  cleared : Bool
  deriving DecidableEq, Repr

/-- `clearConsoleOutput` from `tools/clear-console-output.ts`. -/
def clearConsoleOutputTool (m : ConsoleManager) :
    ConsoleManager × ClearConsoleOutputOutput :=
  (consoleClear m, { cleared := true })

/-! ## `index.ts` DAP wiring

The server tracks `isDAPConnected` and the shared `ConsoleManager`; the DAP
`close` and `terminated` event handlers only flip the connection flag —
neither clears the console buffer. -/

structure DapServerState where
  isDAPConnected : Bool
  consoleManager : ConsoleManager

/-- `dapClient.on('close', ...)` handler in `index.ts`. -/
def onDapClose (s : DapServerState) : DapServerState :=
  { s with isDAPConnected := false }

/-- `dapClient.on('terminated', ...)` handler in `index.ts`. -/
def onDapTerminated (s : DapServerState) : DapServerState :=
  { s with isDAPConnected := false }

/-- `dapClient.on('output', ...)` handler in `index.ts`. -/
def onDapOutput (s : DapServerState) (event : DAPOutputEventBody) (now : Nat) :
    DapServerState :=
  { s with consoleManager := addOutput s.consoleManager event now }

/-! ## Framed transport receive loop (`handleData` of both clients)

Both clients accumulate incoming bytes in a string buffer, enforce the
10 MiB cap (exceeding it calls `this.disconnect()`), and repeatedly: find
the first `\r\n\r\n`, parse `Content-Length` out of the header with the
regex `Content-Length: (\d+)` (no match breaks the loop, leaving the buffer
untouched), and consume header plus body once enough data is buffered.
The buffer is modelled as a codepoint list. -/

/-- First index at which `pat` occurs in `l` (JS `indexOf`). -/
def findSubAux (pat : List Char) : List Char → Nat → Option Nat
  | [], i => if pat.isEmpty then some i else none
  | c :: rest, i =>
      if pat.isPrefixOf (c :: rest) then some i else findSubAux pat rest (i + 1)

def findSub (pat l : List Char) : Option Nat := findSubAux pat l 0

def digitsToNat (ds : List Char) : Nat :=
  ds.foldl (fun acc c => acc * 10 + (c.toNat - '0'.toNat)) 0

/-- The `Content-Length: (\d+)` header match: the digit run following the
first occurrence of `Content-Length: ` (none when absent or not followed by
a digit). -/
def extractContentLength (header : List Char) : Option Nat :=
  match findSub "Content-Length: ".data header with
  | none => none
  | some i =>
      let ds := (header.drop (i + 16)).takeWhile (·.isDigit)
      if ds.isEmpty then none else some (digitsToNat ds)

/-- One pass of the `while (true)` extraction loop: returns the complete
message bodies in arrival order and the remaining buffer. -/
def extractMessages (buf : List Char) : List (List Char) × List Char :=
  match findSub "\r\n\r\n".data buf with
  | none => ([], buf)
  | some headerEnd =>
      match extractContentLength (buf.take headerEnd) with
      | none => ([], buf)
      | some contentLength =>
          let messageEnd := headerEnd + 4 + contentLength
          if _h : buf.length < messageEnd then ([], buf)
          else
            let msg := (buf.drop (headerEnd + 4)).take contentLength
            let rest := buf.drop messageEnd
            let (ms, final) := extractMessages rest
            (msg :: ms, final)
  termination_by buf.length
  decreasing_by
    simp only [List.length_drop]
    omega

/-! ## LSP client session state (`src/lsp-client.ts`) -/

def MAX_BUFFER_SIZE : Nat := 10 * 1024 * 1024

structure LSPClientState where
  socketConnected : Bool
  cache : DiagCache
  buffer : List Char
  isShuttingDown : Bool
  deriving Repr

def lspInit : LSPClientState :=
  { socketConnected := false, cache := [], buffer := [], isShuttingDown := false }

/-- `LSPClient.disconnect`: mark the session as shutting down, destroy the
socket, clear the cache. -/
def lspDisconnect (s : LSPClientState) : LSPClientState :=
  { s with isShuttingDown := true, socketConnected := false,
           cache := cacheClearAll }

/-- `LSPClient.shouldReconnect`. -/
def lspShouldReconnect (s : LSPClientState) : Bool := !s.isShuttingDown

/-- `LSPClient.handleData`: the buffer-cap check calls `this.disconnect()`;
otherwise the chunk is appended and complete messages are extracted
(their JSON dispatch in `handleMessage` never touches the shutdown flag and
is modelled at the manager level). -/
def lspHandleData (s : LSPClientState) (data : List Char) :
    LSPClientState × List (List Char) :=
  if s.buffer.length + data.length > MAX_BUFFER_SIZE then
    (lspDisconnect s, [])
  else
    let (msgs, rest) := extractMessages (s.buffer ++ data)
    ({ s with buffer := rest }, msgs)

/-- The externally-triggered transitions of an `LSPClient`. -/
inductive LSPEvent where
  | connectOk
  | socketClose
  | handleData (data : List Char)
  | disconnect
  | publish (path : String) (ds : List Diagnostic)
  | workspaceChange

def lspStep (s : LSPClientState) : LSPEvent → LSPClientState
  | .connectOk => { s with socketConnected := true }
  | .socketClose => { s with socketConnected := false }
  | .handleData d => (lspHandleData s d).1
  | .disconnect => lspDisconnect s
  | .publish p ds => { s with cache := cacheSet s.cache p ds }
  | .workspaceChange => { s with cache := cacheClearAll }

def lspRun (evs : List LSPEvent) : LSPClientState := evs.foldl lspStep lspInit

/-! ## DAP client request correlation (`dap-client.ts`)

`pendingRequests` is a `Map<number, {resolve, reject, timeout}>`, modelled
as the insertion-ordered list of its keys plus the list of still-armed
timeout handles; every settlement of a continuation is appended to the
`settled` log together with its outcome, so "settled exactly once" is
`Nodup` of the logged sequence numbers. -/

inductive DAPOutcome where
  | resolved
  | rejectedFailure
  | rejectedTimeout
  | rejectedDisconnected
  deriving DecidableEq, Repr

structure DAPClientState where
  nextSeq : Nat
  pending : List Nat
  timers : List Nat
  settled : List (Nat × DAPOutcome)
  isShuttingDown : Bool
  socketConnected : Bool
  deriving Repr

def dapInit : DAPClientState :=
  { nextSeq := 1, pending := [], timers := [], settled := [],
    isShuttingDown := false, socketConnected := true }

/-- The transitions touching the pending map: `sendRequest` registers
`seq = this.seq++` with an armed timeout; `sendEvent` consumes a sequence
number without registering; an incoming response is matched by
`request_seq`; a timeout callback fires only while its timer is armed
(`clearTimeout` disarms it); `disconnect` rejects everything pending. -/
inductive DAPEvent where
  | sendRequest
  | sendEvent
  | response (requestSeq : Nat) (success : Bool)
  | timeoutFire (seq : Nat)
  | disconnect

/-- One transition of the DAP client, following `sendRequest`,
`handleMessage` (response branch), the `setTimeout` callback and
`disconnect` in `dap-client.ts`. -/
def dapStep (s : DAPClientState) : DAPEvent → DAPClientState
  | .sendRequest =>
      { s with nextSeq := s.nextSeq + 1,
               pending := s.pending ++ [s.nextSeq],
               timers := s.timers ++ [s.nextSeq] }
  | .sendEvent => { s with nextSeq := s.nextSeq + 1 }
  | .response q b =>
      if q ∈ s.pending then
        { s with pending := s.pending.erase q,
                 timers := s.timers.erase q,
                 settled := s.settled ++
                   [(q, if b then DAPOutcome.resolved else DAPOutcome.rejectedFailure)] }
      else s
  | .timeoutFire q =>
      if q ∈ s.timers then
        if q ∈ s.pending then
          { s with pending := s.pending.erase q,
                   timers := s.timers.erase q,
                   settled := s.settled ++ [(q, DAPOutcome.rejectedTimeout)] }
        else { s with timers := s.timers.erase q }
      else s
  | .disconnect =>
      { s with isShuttingDown := true, socketConnected := false,
               timers := [],
               settled := s.settled ++
                 s.pending.map (fun q => (q, DAPOutcome.rejectedDisconnected)),
               pending := [] }

def dapRunFrom (s : DAPClientState) (evs : List DAPEvent) : DAPClientState :=
  evs.foldl dapStep s

def dapRun (evs : List DAPEvent) : DAPClientState := dapRunFrom dapInit evs

/-- The sequence numbers assigned to requests by a trace, starting from
`next` (only `sendRequest` registers; `sendEvent` also increments the
counter). -/
def registeredSeqsAux (next : Nat) : List DAPEvent → List Nat
  | [] => []
  | .sendRequest :: rest => next :: registeredSeqsAux (next + 1) rest
  | .sendEvent :: rest => registeredSeqsAux (next + 1) rest
  | .response _ _ :: rest => registeredSeqsAux next rest
  | .timeoutFire _ :: rest => registeredSeqsAux next rest
  | .disconnect :: rest => registeredSeqsAux next rest

def registeredSeqs (evs : List DAPEvent) : List Nat := registeredSeqsAux 1 evs

/-- Inductive invariant of the DAP client: pending keys are distinct and
below the sequence counter, no key is both pending and settled, the settled
log settles each key at most once, and a timeout is armed exactly while its
request is pending. -/
def DAPInv (s : DAPClientState) : Prop :=
  s.pending.Nodup ∧
  (s.settled.map Prod.fst).Nodup ∧
  (∀ q ∈ s.pending, q ∉ s.settled.map Prod.fst) ∧
  (∀ q ∈ s.pending, q < s.nextSeq) ∧
  (∀ q ∈ s.settled.map Prod.fst, q < s.nextSeq) ∧
  s.timers = s.pending

/-! ## C2: diagnostic normalization -/

/-- The severity mapping exactly as the spec words it:
`1→Error, 2→Warning, 3|4→Info, other/missing→Error`. -/
def severitySpecMap (s : Option Nat) : DiagnosticSeverity :=
  if s = some 1 then .error
  else if s = some 2 then .warning
  else if s = some 3 ∨ s = some 4 then .info
  else .error

/-! ## C6: console ring buffer sliding window -/

/-- The entry `addOutput` builds from an output event and a timestamp. -/
def entryOf (e : DAPOutputEventBody × Nat) : ConsoleOutput :=
  { timestamp := e.2
    category := e.1.category
    message := e.1.output
    source := e.1.sourcePath <|> e.1.sourceName
    line := e.1.line }

/-- Folding `addOutput` over events. -/
def addAll (m : ConsoleManager) (events : List (DAPOutputEventBody × Nat)) :
    ConsoleManager :=
  events.foldl (fun m e => addOutput m e.1 e.2) m

/-! ## C7: getOutput filter stages -/

/-- `getOutput` exactly as the claim words it: category equality filter,
then the inclusive minimum-timestamp filter whenever `since` is given, then
the trailing-N limit when `N > 0` (zero or unset meaning "no limit"). -/
def specGetOutput (m : ConsoleManager) (options : ConsoleOutputFilter) :
    List ConsoleOutput :=
  let r1 := match options.category with
    | some c => m.buffer.filter (fun e => e.category = c)
    | none => m.buffer
  let r2 := match options.since with
    | some t => r1.filter (fun e => (e.timestamp : Int) ≥ t)
    | none => r1
  match options.limit with
  | some n => if n > 0 then r2.drop (r2.length - n.toNat) else r2
  | none => r2

/-! ## C4: reconnection guard -/

def lspRunFrom (s : LSPClientState) (evs : List LSPEvent) : LSPClientState :=
  evs.foldl lspStep s

/-! ## C3: workspace scan counters -/

/-- One file of the scan fold: `getFileDiagnostics` with failures caught
and logged (`.catch` keeps the previous cache). -/
def scanStep (cwd ws : String) (fs : String → Option String)
    (pub : String → Option (List Diagnostic)) (c : DiagCache) (f : String) :
    DiagCache :=
  match getFileDiagnostics cwd (some ws) fs (pub f) c f with
  | .ok (c', _) => c'
  | .error _ => c

/-- The modelled per-codepoint UTF-8 width agrees with Lean's `Char.utf8Size`. -/
theorem utf8Width_eq_utf8Size (c : Char) : utf8Width c = c.utf8Size := by
  have hle : ∀ a b : UInt32, a ≤ b ↔ a.toNat ≤ b.toNat := fun a b => by
    rw [UInt32.le_def, BitVec.le_def]
    exact Iff.rfl
  have e : ∀ (n : Nat) (h : n < UInt32.size), (UInt32.ofNatCore n h).toNat = n :=
    fun n h => rfl
  simp only [utf8Width, Char.utf8Size, Char.toNat]
  split_ifs <;> simp only [hle, e] at * <;> omega

/-- `nodeByteLength` agrees with Lean's own UTF-8 byte size. -/
theorem nodeByteLength_eq_utf8ByteSize (s : String) :
    nodeByteLength s = s.utf8ByteSize := by
  have go : ∀ l : List Char, (l.map utf8Width).sum = String.utf8ByteSize.go l := by
    intro l
    induction l with
    | nil => rfl
    | cons c cs ih =>
        simp only [List.map_cons, List.sum_cons, String.utf8ByteSize.go,
          utf8Width_eq_utf8Size, ih]
        omega
  cases s with
  | mk data => exact go data

/-! # Claim theorems -/

/-! ## C1: Content-Length framing -/

/-- C1 (code bug): the claim demands that both protocol clients send a
`Content-Length` equal to the UTF-8 byte length of the JSON payload.  The
DAP client does (`Buffer.byteLength`, byte-exact for every payload), but
the LSP client uses `content.length` — the UTF-16 code-unit count — so for
the 3-character, 9-byte payload `"あああ"` it emits `Content-Length: 3`
instead of 9. -/
theorem C1_lsp_content_length_not_byte_exact :
    (∀ content : String, dapContentLength content = content.utf8ByteSize) ∧
    lspContentLength "あああ" = 3 ∧
    ("あああ" : String).utf8ByteSize = 9 ∧
    lspWireMessage "あああ" = "Content-Length: 3\r\n\r\nあああ" :=
  ⟨nodeByteLength_eq_utf8ByteSize, by decide, by decide, by decide⟩

/-- C2 (confirmed): normalization adds one to the 0-indexed line and
character, maps severity by `1→Error, 2→Warning, 3→Info, 4→Info,
other/missing→Error`, carries the message unchanged and stringifies the
code when present. -/
theorem C2_transform_diagnostic (d : LSPDiagnostic) :
    transformDiagnostic d =
      { line := d.range.start.line + 1
        column := d.range.start.character + 1
        severity := severitySpecMap d.severity
        message := d.message
        code := d.code.map codeToString } := by
  have hsev : ∀ s, convertSeverity s = severitySpecMap s := by
    intro s
    match s with
    | none => rfl
    | some 0 => rfl
    | some 1 => rfl
    | some 2 => rfl
    | some 3 => rfl
    | some 4 => rfl
    | some (n + 5) =>
        simp only [convertSeverity, severitySpecMap]
        have h1 : ¬ (n + 5 = 1) := by omega
        have h2 : ¬ (n + 5 = 2) := by omega
        have h34 : ¬ (n + 5 = 3 ∨ n + 5 = 4) := by omega
        simp [h1, h2, h34]
  simp [transformDiagnostic, hsev]

theorem addOutput_buffer (m : ConsoleManager) (e : DAPOutputEventBody × Nat) :
    (addOutput m e.1 e.2).buffer =
      if (m.buffer ++ [entryOf e]).length > m.maxSize then
        (m.buffer ++ [entryOf e]).tail
      else m.buffer ++ [entryOf e] := rfl

theorem addOutput_maxSize (m : ConsoleManager) (e : DAPOutputEventBody × Nat) :
    (addOutput m e.1 e.2).maxSize = m.maxSize := rfl

/-- After any burst of insertions the buffer is the suffix of all entries
ever present that fits the capacity. -/
theorem addAll_buffer (events : List (DAPOutputEventBody × Nat))
    (m : ConsoleManager) (hm : m.buffer.length ≤ m.maxSize) :
    (addAll m events).buffer =
      (m.buffer ++ events.map entryOf).drop
        ((m.buffer.length + events.length) - m.maxSize) := by
  induction events generalizing m with
  | nil => simp [addAll, Nat.sub_eq_zero_of_le hm]
  | cons e es ih =>
      have hstep : addAll m (e :: es) = addAll (addOutput m e.1 e.2) es := rfl
      rw [hstep]
      by_cases hcap : m.buffer.length + 1 > m.maxSize
      · -- the buffer was exactly full: one eviction
        have hfull : m.buffer.length = m.maxSize := by omega
        have hbuf : (addOutput m e.1 e.2).buffer = (m.buffer ++ [entryOf e]).drop 1 := by
          rw [addOutput_buffer, if_pos (by simp; omega), ← List.drop_one]
        have hlen1 : ((m.buffer ++ [entryOf e]).drop 1).length = m.buffer.length := by
          simp
        have hlen : (addOutput m e.1 e.2).buffer.length ≤ (addOutput m e.1 e.2).maxSize := by
          rw [addOutput_maxSize, hbuf, hlen1, hfull]
        rw [ih _ hlen, addOutput_maxSize, hbuf, hlen1]
        rw [← @List.drop_append_of_le_length _ (m.buffer ++ [entryOf e])
          (List.map entryOf es) 1 (by simp)]
        rw [List.drop_drop, List.append_assoc]
        congr 1
        simp only [List.length_cons]
        omega
      · -- still below capacity: plain append
        have hbuf : (addOutput m e.1 e.2).buffer = m.buffer ++ [entryOf e] := by
          rw [addOutput_buffer, if_neg (by simp; omega)]
        have hlen : (addOutput m e.1 e.2).buffer.length ≤ (addOutput m e.1 e.2).maxSize := by
          rw [addOutput_maxSize, hbuf]
          simp
          omega
        rw [ih _ hlen, addOutput_maxSize, hbuf, List.append_assoc]
        congr 1
        simp only [List.length_append, List.length_cons, List.length_nil]
        omega

/-- C6 (confirmed): starting from a fresh buffer of capacity `cap`, the
buffer never exceeds `cap` entries, and inserting `cap + k` entries leaves
exactly the last `cap` of them, in insertion order (`k` evictions of the
oldest entries for `cap + k` insertions). -/
theorem C6_console_sliding_window (cap : Nat)
    (events : List (DAPOutputEventBody × Nat)) :
    (addAll ⟨[], cap⟩ events).buffer.length ≤ cap ∧
    ∀ k, events.length = cap + k →
      (addAll ⟨[], cap⟩ events).buffer = (events.map entryOf).drop k := by
  have hbuf := addAll_buffer events ⟨[], cap⟩ (by simp)
  simp only [List.length_nil, List.nil_append, Nat.zero_add] at hbuf
  constructor
  · rw [hbuf]
    simp
    omega
  · intro k hk
    rw [hbuf]
    congr 1
    omega

/-- Witness for C6 at capacity 2 and five insertions. -/
theorem C6_console_sliding_window_witness :
    ([(⟨.console, "1", none, none, none⟩, 1),
      (⟨.console, "2", none, none, none⟩, 2),
      (⟨.stdout, "3", none, none, none⟩, 3),
      (⟨.stderr, "4", none, none, none⟩, 4),
      (⟨.console, "5", none, none, none⟩, 5)] :
        List (DAPOutputEventBody × Nat)).length = 2 + 3 ∧
    (addAll ⟨[], 2⟩
      [(⟨.console, "1", none, none, none⟩, 1),
       (⟨.console, "2", none, none, none⟩, 2),
       (⟨.stdout, "3", none, none, none⟩, 3),
       (⟨.stderr, "4", none, none, none⟩, 4),
       (⟨.console, "5", none, none, none⟩, 5)]).buffer =
      ([(⟨.console, "1", none, none, none⟩, 1),
        (⟨.console, "2", none, none, none⟩, 2),
        (⟨.stdout, "3", none, none, none⟩, 3),
        (⟨.stderr, "4", none, none, none⟩, 4),
        (⟨.console, "5", none, none, none⟩, 5)].map entryOf).drop 3 :=
  ⟨by decide,
   (C6_console_sliding_window 2 _).2 3 (by decide)⟩

/-- C7 (confirmed): `getOutput` applies the category filter, then the
inclusive `since` filter, then the trailing-N limit (a zero or unset limit
returning all remaining entries), and the result is a sublist of the
buffer, hence in original insertion order.  (The code skips the `since`
stage when `since ≤ 0`, which agrees with the inclusive filter because
timestamps are non-negative.) -/
theorem C7_get_output_stages (m : ConsoleManager)
    (options : ConsoleOutputFilter) :
    getOutput m options = specGetOutput m options ∧
    (getOutput m options).Sublist m.buffer := by
  have hfilter : ∀ (l : List ConsoleOutput) (t : Int), t ≤ 0 →
      l.filter (fun e => decide ((e.timestamp : Int) ≥ t)) = l := by
    intro l t ht
    apply List.filter_eq_self.mpr
    intro e _
    have : (0 : Int) ≤ (e.timestamp : Int) := Int.ofNat_nonneg _
    simp
    omega
  have heq : getOutput m options = specGetOutput m options := by
    unfold getOutput specGetOutput
    rcases options with ⟨limit, category, since⟩
    rcases since with _ | t
    · rfl
    · simp only
      by_cases ht : t > 0
      · rw [if_pos ht]
      · rw [if_neg ht]
        rcases category with _ | c <;>
          simp only [hfilter _ t (by omega)]
  refine ⟨heq, ?_⟩
  unfold getOutput
  rcases options with ⟨limit, category, since⟩
  have h1 : ∀ l : List ConsoleOutput, l.Sublist m.buffer →
      (match category with
        | some c => l.filter (fun e : ConsoleOutput => e.category = c)
        | none => l).Sublist m.buffer := by
    intro l hl
    rcases category with _ | c
    · exact hl
    · exact (List.filter_sublist l).trans hl
  have h2 : ∀ l : List ConsoleOutput, l.Sublist m.buffer →
      (match since with
        | some t =>
            if t > 0 then
              l.filter (fun e : ConsoleOutput => (e.timestamp : Int) ≥ t)
            else l
        | none => l).Sublist m.buffer := by
    intro l hl
    rcases since with _ | t
    · exact hl
    · dsimp only
      by_cases ht : t > 0
      · rw [if_pos ht]
        exact (List.filter_sublist l).trans hl
      · rw [if_neg ht]
        exact hl
  have h3 : ∀ l : List ConsoleOutput, l.Sublist m.buffer →
      (match limit with
        | some n => if n > 0 then l.drop (l.length - n.toNat) else l
        | none => l).Sublist m.buffer := by
    intro l hl
    rcases limit with _ | n
    · exact hl
    · dsimp only
      by_cases hn : n > 0
      · rw [if_pos hn]
        exact (List.drop_sublist _ l).trans hl
      · rw [if_neg hn]
        exact hl
  exact h3 _ (h2 _ (h1 _ (List.Sublist.refl _)))

/-! ## C10: total_buffered while disconnected -/

/-- C10 (confirmed): a console query on a disconnected DAP session returns
`total_buffered = 0` (and no entries) regardless of the ring buffer's real
occupancy — neither the `close` nor the `terminated` handler clears the
buffer, so the occupancy may be positive — while a connected query reports
the true occupancy.  The final conjunct exhibits a buffer holding two
entries whose disconnected query still reports zero. -/
theorem C10_total_buffered_disconnected :
    (∀ (m : ConsoleManager) (input : GetConsoleOutputInput),
        getConsoleOutputTool m false input =
          .ok { entries := [], total_buffered := 0,
                error := some NO_DEBUG_SESSION_ERROR }) ∧
    (∀ m : ConsoleManager,
        getConsoleOutputTool m true { limit := none, category := none, since := none } =
          .ok { entries := m.buffer, total_buffered := m.buffer.length,
                error := none }) ∧
    (∀ s : DapServerState,
        (onDapClose s).consoleManager = s.consoleManager ∧
        (onDapClose s).isDAPConnected = false ∧
        (onDapTerminated s).consoleManager = s.consoleManager ∧
        (onDapTerminated s).isDAPConnected = false) ∧
    (getConsoleOutputTool
        ⟨[⟨5, .console, "a", none, none⟩, ⟨6, .stderr, "b", none, none⟩], 1000⟩
        false { limit := none, category := none, since := none } =
      .ok { entries := [], total_buffered := 0,
            error := some NO_DEBUG_SESSION_ERROR } ∧
     consoleSize
        ⟨[⟨5, .console, "a", none, none⟩, ⟨6, .stderr, "b", none, none⟩], 1000⟩ = 2) := by
  exact ⟨fun m input => rfl, fun m => rfl, fun s => ⟨rfl, rfl, rfl, rfl⟩, rfl, rfl⟩

/-! ## C9: disconnected-session query behavior -/

/-- C9 counterexample: a single-file diagnostics query made while the LSP
session is disconnected, with a `file_path` that is not a `.gd` file,
throws (`file_path must be a .gd file`) instead of returning the
empty-result-plus-guidance payload — input validation runs before the
connectivity check. -/
theorem C9_counterexample :
    getDiagnosticsTool "/proj" (some "/proj") (fun _ => none) none [] false
      (some "/proj/x.txt") = .error "file_path must be a .gd file" := by
  rfl

/-- C9 (corrected): while the corresponding session is disconnected, the
workspace scan and the console query always return the empty result plus
the guidance string without throwing, and the single-file diagnostics
query does so exactly when its input passes validation (a present
`file_path` ending in `.gd`); a missing `file_path` or a non-`.gd` path
throws regardless of connection state. -/
theorem C9_disconnected_queries
    (cwd : String) (ws : Option String) (fs : String → Option String)
    (publish : Option (List Diagnostic)) (pub : String → Option (List Diagnostic))
    (cache : DiagCache) (files : List String) (m : ConsoleManager)
    (input : GetConsoleOutputInput) (fp : String) :
    (jsEndsWith fp ".gd" = true →
        getDiagnosticsTool cwd ws fs publish cache false (some fp) =
          .ok { diagnostics := [], error := some LSP_NOT_RUNNING_ERROR }) ∧
    (scanWorkspaceDiagnosticsTool cwd ws fs pub cache files false =
        .ok { files_scanned := 0, files_with_issues := 0, diagnostics := [],
              error := some LSP_NOT_RUNNING_ERROR }) ∧
    (getConsoleOutputTool m false input =
        .ok { entries := [], total_buffered := 0,
              error := some NO_DEBUG_SESSION_ERROR }) ∧
    (jsEndsWith fp ".gd" = false →
        getDiagnosticsTool cwd ws fs publish cache false (some fp) =
          .error "file_path must be a .gd file") ∧
    (getDiagnosticsTool cwd ws fs publish cache false none =
        .error "file_path is required. Use scan_workspace_diagnostics for workspace-wide checks.") := by
  refine ⟨fun h => ?_, rfl, rfl, fun h => ?_, rfl⟩
  · simp [getDiagnosticsTool, h]
  · simp [getDiagnosticsTool, h]

/-- Witness for C9 at a concrete valid and a concrete invalid input. -/
theorem C9_disconnected_queries_witness :
    jsEndsWith "/ws/a.gd" ".gd" = true ∧
    getDiagnosticsTool "/ws" (some "/ws") (fun _ => none) none [] false
        (some "/ws/a.gd") =
      .ok { diagnostics := [], error := some LSP_NOT_RUNNING_ERROR } ∧
    jsEndsWith "/ws/a.txt" ".gd" = false ∧
    getDiagnosticsTool "/ws" (some "/ws") (fun _ => none) none [] false
        (some "/ws/a.txt") = .error "file_path must be a .gd file" :=
  ⟨by decide,
   (C9_disconnected_queries "/ws" (some "/ws") (fun _ => none) none
      (fun _ => none) [] [] ⟨[], 1000⟩
      { limit := none, category := none, since := none } "/ws/a.gd").1 (by decide),
   by decide,
   (C9_disconnected_queries "/ws" (some "/ws") (fun _ => none) none
      (fun _ => none) [] [] ⟨[], 1000⟩
      { limit := none, category := none, since := none } "/ws/a.txt").2.2.2.1 (by decide)⟩

/-- C4 counterexample: the state reached by feeding the LSP session a chunk
that exceeds the 10 MiB receive-buffer cap — with no explicit teardown call
in the trace — already has `shouldReconnect() = false`, because the cap
handler invokes `this.disconnect()`, the same routine as explicit teardown.
The claim asserts `shouldReconnect()` returns `true` there. -/
theorem C4_counterexample :
    lspShouldReconnect
      (lspRun [.handleData (List.replicate (MAX_BUFFER_SIZE + 1) 'a')]) = false := by
  have key : ∀ d : List Char, lspInit.buffer.length + d.length > MAX_BUFFER_SIZE →
      lspShouldReconnect (lspRun [.handleData d]) = false := by
    intro d hd
    simp only [lspRun, List.foldl_cons, List.foldl_nil, lspStep, lspHandleData,
      if_pos hd]
    rfl
  refine key _ ?_
  rw [List.length_replicate]
  show List.length [] + (MAX_BUFFER_SIZE + 1) > MAX_BUFFER_SIZE
  rw [List.length_nil]
  omega

/-- C4 (corrected): `shouldReconnect()` is cleared exactly by
`disconnect()`, which runs on explicit teardown *and* inside the
receive-buffer-cap handler; once cleared it stays false permanently over
any further events, and teardown is idempotent.  The last conjunct
characterizes the only two ways the flag can flip. -/
theorem C4_reconnect_guard (s : LSPClientState) (e : LSPEvent)
    (evs : List LSPEvent) :
    (lspShouldReconnect lspInit = true) ∧
    (lspShouldReconnect (lspStep s .disconnect) = false) ∧
    (lspStep (lspStep s .disconnect) .disconnect = lspStep s .disconnect) ∧
    (lspShouldReconnect s = false →
        lspShouldReconnect (lspRunFrom s evs) = false) ∧
    (lspShouldReconnect s = true →
        lspShouldReconnect (lspStep s e) = false →
        e = .disconnect ∨
          ∃ d, e = .handleData d ∧
            s.buffer.length + d.length > MAX_BUFFER_SIZE) := by
  refine ⟨rfl, rfl, rfl, ?_, ?_⟩
  · intro hs
    induction evs generalizing s with
    | nil => exact hs
    | cons ev evs ih =>
        have hstep : lspShouldReconnect (lspStep s ev) = false := by
          cases ev with
          | handleData d =>
              simp only [lspStep, lspHandleData]
              by_cases hc : s.buffer.length + d.length > MAX_BUFFER_SIZE
              · rw [if_pos hc]
                rfl
              · rw [if_neg hc]
                exact hs
          | connectOk => exact hs
          | socketClose => exact hs
          | disconnect => rfl
          | publish p ds => exact hs
          | workspaceChange => exact hs
        exact ih _ hstep
  · intro hs hflip
    cases e with
    | disconnect => exact Or.inl rfl
    | handleData d =>
        refine Or.inr ⟨d, rfl, ?_⟩
        by_contra hc
        have hsame : lspShouldReconnect (lspStep s (.handleData d)) =
            lspShouldReconnect s := by
          simp only [lspStep, lspHandleData, if_neg hc]
          rfl
        rw [hsame, hs] at hflip
        exact absurd hflip (by simp)
    | connectOk =>
        have hsame : lspShouldReconnect (lspStep s .connectOk) =
            lspShouldReconnect s := rfl
        rw [hsame, hs] at hflip
        exact absurd hflip (by simp)
    | socketClose =>
        have hsame : lspShouldReconnect (lspStep s .socketClose) =
            lspShouldReconnect s := rfl
        rw [hsame, hs] at hflip
        exact absurd hflip (by simp)
    | publish p ds =>
        have hsame : lspShouldReconnect (lspStep s (.publish p ds)) =
            lspShouldReconnect s := rfl
        rw [hsame, hs] at hflip
        exact absurd hflip (by simp)
    | workspaceChange =>
        have hsame : lspShouldReconnect (lspStep s .workspaceChange) =
            lspShouldReconnect s := rfl
        rw [hsame, hs] at hflip
        exact absurd hflip (by simp)

/-- Witness for C4 at a concrete state and trace. -/
theorem C4_reconnect_guard_witness :
    lspShouldReconnect
      (lspRunFrom (lspStep lspInit .disconnect) [.connectOk, .socketClose]) = false :=
  (C4_reconnect_guard (lspStep lspInit .disconnect) .connectOk
    [.connectOk, .socketClose]).2.2.2.1 rfl

/-! ## C5: workspace path validation -/

theorem commonPrefixLen_eq_length_of_isPrefixOf :
    ∀ {a b : List String}, a.isPrefixOf b = true → commonPrefixLen a b = a.length := by
  intro a
  induction a with
  | nil => intro b _; rfl
  | cons x as ih =>
      intro b h
      cases b with
      | nil => simp [List.isPrefixOf] at h
      | cons y bs =>
          simp only [List.isPrefixOf, Bool.and_eq_true, beq_iff_eq] at h
          obtain ⟨hxy, hpre⟩ := h
          simp [commonPrefixLen, hxy, ih hpre]

theorem commonPrefixLen_lt_length_of_not_isPrefixOf :
    ∀ {a b : List String}, a.isPrefixOf b = false → commonPrefixLen a b < a.length := by
  intro a
  induction a with
  | nil => intro b h; simp [List.isPrefixOf] at h
  | cons x as ih =>
      intro b h
      cases b with
      | nil => simp [commonPrefixLen]
      | cons y bs =>
          simp only [List.isPrefixOf, Bool.and_eq_false_iff] at h
          by_cases hxy : x = y
          · rcases h with h | h
            · simp [hxy] at h
            · have hlt := ih h
              simp only [commonPrefixLen, if_pos hxy, List.length_cons]
              omega
          · simp [commonPrefixLen, hxy]

theorem joinSegs_dotdot_startsWith (l : List String) :
    jsStartsWith (joinSegs (".." :: l)) ".." = true := by
  cases l with
  | nil => decide
  | cons b bs =>
      show jsStartsWith (".." ++ "/" ++ joinSegs (b :: bs)) ".." = true
      simp [jsStartsWith, String.data_append, List.isPrefixOf]

theorem mem_normSegs_ne_empty :
    ∀ (segs acc : List String), (∀ x ∈ acc, x ≠ "") →
      ∀ x ∈ segs.foldl normStep acc, x ≠ "" := by
  intro segs
  induction segs with
  | nil => intro acc hacc x hx; exact hacc x hx
  | cons s rest ih =>
      intro acc hacc x hx
      refine ih (normStep acc s) ?_ x hx
      intro y hy
      unfold normStep at hy
      split_ifs at hy with h1 h2
      · exact hacc y hy
      · exact hacc y ((List.dropLast_sublist acc).subset hy)
      · rcases List.mem_append.mp hy with hmem | hmem
        · exact hacc y hmem
        · simp at hmem
          subst hmem
          push_neg at h1
          exact h1.1

theorem joinSegs_ne_empty_of_head_ne_empty (x : String) (rest : List String)
    (hx : x ≠ "") : joinSegs (x :: rest) ≠ "" := by
  cases rest with
  | nil => exact hx
  | cons b bs =>
      show x ++ "/" ++ joinSegs (b :: bs) ≠ ""
      intro h
      have hdata : (x ++ "/" ++ joinSegs (b :: bs)).data = [] := by rw [h]
      simp [String.data_append] at hdata

/-- `validateWorkspacePath` with its let-bindings unfolded. -/
theorem validateWorkspacePath_eq (cwd ws fp : String) :
    validateWorkspacePath cwd ws fp =
      !(jsStartsWith (nodeRelative (resolveSegs cwd ws) (resolveSegs cwd fp)) ".." ||
        (nodeRelative (resolveSegs cwd ws) (resolveSegs cwd fp) == "")) := rfl

/-- `getFileDiagnostics` on a set workspace, with its let-bindings unfolded. -/
theorem getFileDiagnostics_eq (cwd ws : String) (fs : String → Option String)
    (publish : Option (List Diagnostic)) (cache : DiagCache) (fp : String) :
    getFileDiagnostics cwd (some ws) fs publish cache fp =
      if jsStartsWith (nodeRelative (resolveSegs cwd ws) (resolveSegs cwd fp)) ".." ||
          (nodeRelative (resolveSegs cwd ws) (resolveSegs cwd fp) == "") then
        .error ("File path must be within workspace: " ++ fp)
      else
        match fs (pathToString (resolveSegs cwd fp)) with
        | none => .error ("Cannot read file " ++ fp ++ ": read failed")
        | some _content =>
            let cache' := match publish with
              | some ds => cacheSet cache (pathToString (resolveSegs cwd fp)) ds
              | none => cache
            .ok (cache', cacheGet cache' (pathToString (resolveSegs cwd fp))) := rfl

/-- C5 counterexample: with workspace root `/proj`, the file path
`/proj/..foo.gd` canonicalizes to a location strictly inside the root, yet
`getFileDiagnostics` rejects it with the path-validation error, because its
workspace-relative form `..foo.gd` happens to start with the two characters
`..` — contradicting "accepts every path that resolves to a location inside
the root". -/
theorem C5_counterexample :
    insideWorkspace "/proj" "/proj" "/proj/..foo.gd" = true ∧
    validateWorkspacePath "/proj" "/proj" "/proj/..foo.gd" = false ∧
    getFileDiagnostics "/proj" (some "/proj") (fun _ => some "extends Node") none []
        "/proj/..foo.gd" =
      .error "File path must be within workspace: /proj/..foo.gd" :=
  ⟨by decide, by decide, by rfl⟩

/-- C5 (corrected): every canonicalized path outside the workspace root is
rejected, and the rejection precedes any file read (it is the
path-validation error whatever the file system holds); every accepted path
lies inside the root; but acceptance additionally requires the
root-relative form to be non-empty and not to begin with the two characters
`..`, so the root itself and inside paths whose first relative segment
literally starts with `..` are also rejected. -/
theorem C5_path_validation (cwd ws fp : String) :
    (insideWorkspace cwd ws fp = false → validateWorkspacePath cwd ws fp = false) ∧
    (validateWorkspacePath cwd ws fp = true → insideWorkspace cwd ws fp = true) ∧
    (∀ fs publish cache, validateWorkspacePath cwd ws fp = false →
        getFileDiagnostics cwd (some ws) fs publish cache fp =
          .error ("File path must be within workspace: " ++ fp)) ∧
    (insideWorkspace cwd ws fp = true →
        resolveSegs cwd fp ≠ resolveSegs cwd ws →
        jsStartsWith (nodeRelative (resolveSegs cwd ws) (resolveSegs cwd fp)) ".." = false →
        validateWorkspacePath cwd ws fp = true) := by
  have houtside : insideWorkspace cwd ws fp = false →
      validateWorkspacePath cwd ws fp = false := by
    intro h
    unfold insideWorkspace at h
    have hlt := commonPrefixLen_lt_length_of_not_isPrefixOf h
    obtain ⟨k, hk⟩ : ∃ k, (resolveSegs cwd ws).length -
        commonPrefixLen (resolveSegs cwd ws) (resolveSegs cwd fp) = k + 1 :=
      ⟨(resolveSegs cwd ws).length -
        commonPrefixLen (resolveSegs cwd ws) (resolveSegs cwd fp) - 1, by omega⟩
    have hrel : nodeRelative (resolveSegs cwd ws) (resolveSegs cwd fp) =
        joinSegs (".." :: (List.replicate k ".." ++
          (resolveSegs cwd fp).drop
            (commonPrefixLen (resolveSegs cwd ws) (resolveSegs cwd fp)))) := by
      unfold nodeRelative relSegs
      dsimp only
      rw [hk, List.replicate_succ, List.cons_append]
    have hjs : jsStartsWith
        (nodeRelative (resolveSegs cwd ws) (resolveSegs cwd fp)) ".." = true := by
      rw [hrel]
      exact joinSegs_dotdot_startsWith _
    rw [validateWorkspacePath_eq, hjs]
    rfl
  refine ⟨houtside, ?_, ?_, ?_⟩
  · intro h
    by_contra hin
    have hfalse : insideWorkspace cwd ws fp = false := by
      cases hv : insideWorkspace cwd ws fp
      · rfl
      · exact absurd hv hin
    rw [houtside hfalse] at h
    exact Bool.false_ne_true h
  · intro fs publish cache h
    have hcond : (jsStartsWith
        (nodeRelative (resolveSegs cwd ws) (resolveSegs cwd fp)) ".." ||
        (nodeRelative (resolveSegs cwd ws) (resolveSegs cwd fp) == "")) = true := by
      rw [validateWorkspacePath_eq] at h
      cases hc : (jsStartsWith
          (nodeRelative (resolveSegs cwd ws) (resolveSegs cwd fp)) ".." ||
          (nodeRelative (resolveSegs cwd ws) (resolveSegs cwd fp) == ""))
      · rw [hc] at h
        exact absurd h (by decide)
      · rfl
    rw [getFileDiagnostics_eq, if_pos hcond]
  · intro hin hne hstart
    have hrel : nodeRelative (resolveSegs cwd ws) (resolveSegs cwd fp) ≠ "" := by
      unfold insideWorkspace at hin
      have hc := commonPrefixLen_eq_length_of_isPrefixOf hin
      unfold nodeRelative relSegs
      dsimp only
      rw [hc, Nat.sub_self, List.replicate_zero, List.nil_append]
      have hpre : resolveSegs cwd ws <+: resolveSegs cwd fp :=
        Iff.mp List.isPrefixOf_iff_prefix hin
      have hlt : (resolveSegs cwd ws).length < (resolveSegs cwd fp).length := by
        rcases Nat.lt_or_ge (resolveSegs cwd ws).length
            (resolveSegs cwd fp).length with hl | hl
        · exact hl
        · exact absurd (hpre.eq_of_length_le hl).symm hne
      obtain ⟨x, rest, hxr⟩ : ∃ x rest,
          (resolveSegs cwd fp).drop (resolveSegs cwd ws).length = x :: rest := by
        cases hd : (resolveSegs cwd fp).drop (resolveSegs cwd ws).length with
        | nil =>
            exfalso
            have hlen0 := congrArg List.length hd
            simp at hlen0
            omega
        | cons x rest => exact ⟨x, rest, rfl⟩
      rw [hxr]
      refine joinSegs_ne_empty_of_head_ne_empty x rest ?_
      have hxmem : x ∈ resolveSegs cwd fp :=
        List.mem_of_mem_drop (by rw [hxr]; exact List.mem_cons_self _ _)
      unfold resolveSegs at hxmem
      split_ifs at hxmem <;>
        exact mem_normSegs_ne_empty _ [] (by intro y hy; cases hy) x hxmem
    have hbeq : (nodeRelative (resolveSegs cwd ws) (resolveSegs cwd fp) == "") = false :=
      beq_eq_false_iff_ne.mpr hrel
    rw [validateWorkspacePath_eq, hstart, hbeq]
    rfl

/-- Witness for C5: a traversal that escapes the root is rejected before
the read, and a traversal that stays inside is accepted. -/
theorem C5_path_validation_witness :
    validateWorkspacePath "/proj" "/proj" "/etc/passwd" = false ∧
    getFileDiagnostics "/proj" (some "/proj") (fun _ => some "root:x") none []
        "/etc/passwd" = .error "File path must be within workspace: /etc/passwd" ∧
    validateWorkspacePath "/proj" "/proj" "/proj/sub/../a.gd" = true :=
  ⟨(C5_path_validation "/proj" "/proj" "/etc/passwd").1 (by decide),
   (C5_path_validation "/proj" "/proj" "/etc/passwd").2.2.1
     (fun _ => some "root:x") none []
     ((C5_path_validation "/proj" "/proj" "/etc/passwd").1 (by decide)),
   (C5_path_validation "/proj" "/proj" "/proj/sub/../a.gd").2.2.2
     (by decide) (by decide) (by decide)⟩

theorem scanWorkspace_eq_foldl (cwd ws : String) (fs : String → Option String)
    (pub : String → Option (List Diagnostic)) (cache : DiagCache)
    (files : List String) :
    scanWorkspace cwd (some ws) fs pub cache files =
      .ok (files.foldl (scanStep cwd ws fs pub) cache) := rfl

/-- The connected scan tool, fully reduced: both counters are functions of
the final cache snapshot. -/
theorem scanTool_eq (cwd ws : String) (fs : String → Option String)
    (pub : String → Option (List Diagnostic)) (cache : DiagCache)
    (files : List String) :
    scanWorkspaceDiagnosticsTool cwd (some ws) fs pub cache files true =
      .ok { files_scanned := (files.foldl (scanStep cwd ws fs pub) cache).length
            files_with_issues :=
              ((files.foldl (scanStep cwd ws fs pub) cache).filter
                (fun e => e.2 ≠ [])).length
            diagnostics := files.foldl (scanStep cwd ws fs pub) cache
            error := none } := rfl

theorem scanStep_success (cwd ws : String) (fs : String → Option String)
    (pub : String → Option (List Diagnostic)) (c : DiagCache) (f : String)
    (hval : validateWorkspacePath cwd ws f = true)
    (hfs : (fs (pathToString (resolveSegs cwd f))).isSome = true)
    (hpub : (pub f).isSome = true) :
    ∃ ds, pub f = some ds ∧
      scanStep cwd ws fs pub c f =
        cacheSet c (pathToString (resolveSegs cwd f)) ds := by
  obtain ⟨content, hcontent⟩ := Option.isSome_iff_exists.mp hfs
  obtain ⟨ds, hds⟩ := Option.isSome_iff_exists.mp hpub
  refine ⟨ds, hds, ?_⟩
  unfold scanStep
  rw [getFileDiagnostics_eq]
  have hcond : ¬ ((jsStartsWith
      (nodeRelative (resolveSegs cwd ws) (resolveSegs cwd f)) ".." ||
      (nodeRelative (resolveSegs cwd ws) (resolveSegs cwd f) == "")) = true) := by
    rw [validateWorkspacePath_eq] at hval
    intro hcontra
    rw [hcontra] at hval
    exact absurd hval (by decide)
  rw [if_neg hcond, hcontent, hds]

theorem cacheSet_map_fst_of_not_mem (c : DiagCache) (p : String)
    (ds : List Diagnostic) (h : p ∉ c.map Prod.fst) :
    (cacheSet c p ds).map Prod.fst = c.map Prod.fst ++ [p] := by
  unfold cacheSet
  have hany : (c.any (·.1 = p)) = false := by
    rw [List.any_eq_false]
    intro e he
    simp only [decide_eq_true_eq]
    intro heq
    exact h (List.mem_map.mpr ⟨e, he, heq⟩)
  rw [hany]
  simp

/-- Driving files whose resolved paths are fresh and distinct appends
exactly one cache key per file. -/
theorem scan_foldl_map_fst (cwd ws : String) (fs : String → Option String)
    (pub : String → Option (List Diagnostic)) :
    ∀ (files : List String) (c : DiagCache),
      (∀ f ∈ files, validateWorkspacePath cwd ws f = true ∧
        (fs (pathToString (resolveSegs cwd f))).isSome = true ∧
        (pub f).isSome = true) →
      (c.map Prod.fst ++
        files.map (fun f => pathToString (resolveSegs cwd f))).Nodup →
      (files.foldl (scanStep cwd ws fs pub) c).map Prod.fst =
        c.map Prod.fst ++ files.map (fun f => pathToString (resolveSegs cwd f)) := by
  intro files
  induction files with
  | nil => intro c _ _; simp
  | cons f rest ih =>
      intro c hsucc hnodup
      obtain ⟨hval, hfs, hpub⟩ := hsucc f (List.mem_cons_self _ _)
      obtain ⟨ds, _, hstep⟩ := scanStep_success cwd ws fs pub c f hval hfs hpub
      have hmem : (pathToString (resolveSegs cwd f)) ∉ c.map Prod.fst := by
        rw [List.map_cons] at hnodup
        rcases List.nodup_append.mp hnodup with ⟨_, _, hdisj⟩
        intro hx
        exact hdisj hx (List.mem_cons_self _ _)
      have hstep_fst :
          ((scanStep cwd ws fs pub c f).map Prod.fst) =
            c.map Prod.fst ++ [pathToString (resolveSegs cwd f)] := by
        rw [hstep]
        exact cacheSet_map_fst_of_not_mem c _ ds hmem
      have hfold : (f :: rest).foldl (scanStep cwd ws fs pub) c =
          rest.foldl (scanStep cwd ws fs pub) (scanStep cwd ws fs pub c f) := rfl
      rw [hfold]
      rw [ih (scanStep cwd ws fs pub c f)
        (fun g hg => hsucc g (List.mem_cons_of_mem _ hg)) ?_]
      · rw [hstep_fst]
        simp
      · rw [hstep_fst]
        rw [List.map_cons, List.append_cons] at hnodup
        exact hnodup

/-- C3 counterexample: a scan that drives exactly two files over a cache
that still holds a stale entry for a third file reports
`files_scanned = 3`, not the number of files driven (2); the counters come
from the cache snapshot, not from the scan itself. -/
theorem C3_counterexample :
    scanWorkspaceDiagnosticsTool "/proj" (some "/proj") (fun _ => some "")
        (fun f => if f = "/proj/b.gd"
          then some [⟨6, 15, .error, "Unexpected token", none⟩] else some [])
        [("/proj/c.gd", [])] ["/proj/a.gd", "/proj/b.gd"] true =
      .ok { files_scanned := 3
            files_with_issues := 1
            diagnostics := [("/proj/c.gd", []), ("/proj/a.gd", []),
              ("/proj/b.gd", [⟨6, 15, .error, "Unexpected token", none⟩])]
            error := none } ∧
    (["/proj/a.gd", "/proj/b.gd"] : List String).length = 2 :=
  ⟨rfl, rfl⟩

/-- C3 (corrected): the counters are derived from the diagnostic-cache
snapshot after the scan — `files_scanned` counts its keys (one per cached
publish, including entries the scan did not drive) and `files_with_issues`
its entries with a non-empty list.  In the two-file scenario over an
initially empty cache, with the peer publishing an empty list for `a.gd`
and one diagnostic for `b.gd`, the scan returns `files_scanned = 2`,
`files_with_issues = 1`, and the map holds `a.gd ↦ []` alongside `b.gd`'s
single entry.  When every driven file validates, reads and gets a publish,
and the resolved paths are distinct and fresh, `files_scanned` equals the
number of files driven. -/
theorem C3_scan_counters :
    (scanWorkspaceDiagnosticsTool "/proj" (some "/proj") (fun _ => some "")
        (fun f => if f = "/proj/b.gd"
          then some [⟨6, 15, .error, "Unexpected token", none⟩] else some [])
        [] ["/proj/a.gd", "/proj/b.gd"] true =
      .ok { files_scanned := 2
            files_with_issues := 1
            diagnostics := [("/proj/a.gd", []),
              ("/proj/b.gd", [⟨6, 15, .error, "Unexpected token", none⟩])]
            error := none }) ∧
    (∀ (cwd ws : String) (fs : String → Option String)
        (pub : String → Option (List Diagnostic)) (cache : DiagCache)
        (files : List String),
        scanWorkspaceDiagnosticsTool cwd (some ws) fs pub cache files true =
          .ok { files_scanned := (files.foldl (scanStep cwd ws fs pub) cache).length
                files_with_issues :=
                  ((files.foldl (scanStep cwd ws fs pub) cache).filter
                    (fun e => e.2 ≠ [])).length
                diagnostics := files.foldl (scanStep cwd ws fs pub) cache
                error := none }) ∧
    (∀ (cwd ws : String) (fs : String → Option String)
        (pub : String → Option (List Diagnostic)) (files : List String),
        (∀ f ∈ files, validateWorkspacePath cwd ws f = true ∧
          (fs (pathToString (resolveSegs cwd f))).isSome = true ∧
          (pub f).isSome = true) →
        (files.map (fun f => pathToString (resolveSegs cwd f))).Nodup →
        (files.foldl (scanStep cwd ws fs pub) []).length = files.length) := by
  refine ⟨rfl, fun cwd ws fs pub cache files => scanTool_eq .., ?_⟩
  intro cwd ws fs pub files hsucc hnodup
  have hkeys := scan_foldl_map_fst cwd ws fs pub files [] hsucc
    (by simpa using hnodup)
  have hlen := congrArg List.length hkeys
  simpa using hlen

/-- Witness for C3's fresh-scan conjunct at the two-file workspace. -/
theorem C3_scan_counters_witness :
    ((["/proj/a.gd", "/proj/b.gd"] : List String).foldl
      (scanStep "/proj" "/proj" (fun _ => some "")
        (fun f => if f = "/proj/b.gd"
          then some [⟨6, 15, .error, "Unexpected token", none⟩] else some []))
      []).length = (["/proj/a.gd", "/proj/b.gd"] : List String).length :=
  C3_scan_counters.2.2 "/proj" "/proj" (fun _ => some "")
    (fun f => if f = "/proj/b.gd"
      then some [⟨6, 15, .error, "Unexpected token", none⟩] else some [])
    ["/proj/a.gd", "/proj/b.gd"] (by decide) (by decide)

/-! ## C8: pending DAP request settlement -/

theorem dapInv_init : DAPInv dapInit := by
  refine ⟨List.nodup_nil, List.nodup_nil, ?_, ?_, ?_, rfl⟩ <;> intro q hq <;> cases hq

theorem dapStep_inv (s : DAPClientState) (e : DAPEvent) (h : DAPInv s) :
    DAPInv (dapStep s e) := by
  obtain ⟨hnd, hndS, hdisj, hbp, hbs, ht⟩ := h
  cases e with
  | sendRequest =>
      refine ⟨?_, hndS, ?_, ?_, ?_, by simp [dapStep, ht]⟩
      · simp only [dapStep]
        rw [List.nodup_append]
        refine ⟨hnd, List.nodup_singleton _, ?_⟩
        intro a ha hb
        simp only [List.mem_singleton] at hb
        exact absurd (hbp _ (hb ▸ ha)) (Nat.lt_irrefl _)
      · intro q hq
        simp only [dapStep, List.mem_append, List.mem_singleton] at hq
        simp only [dapStep]
        rcases hq with hq | hq
        · exact hdisj q hq
        · rw [hq]
          intro hmem
          exact absurd (hbs _ hmem) (Nat.lt_irrefl _)
      · intro q hq
        simp only [dapStep, List.mem_append, List.mem_singleton] at hq
        simp only [dapStep]
        rcases hq with hq | hq
        · exact Nat.lt_succ_of_lt (hbp q hq)
        · rw [hq]
          exact Nat.lt_succ_self _
      · intro q hq
        simp only [dapStep] at hq ⊢
        exact Nat.lt_succ_of_lt (hbs q hq)
  | sendEvent =>
      refine ⟨hnd, hndS, hdisj, ?_, ?_, ht⟩
      · intro q hq
        simp only [dapStep] at hq ⊢
        exact Nat.lt_succ_of_lt (hbp q hq)
      · intro q hq
        simp only [dapStep] at hq ⊢
        exact Nat.lt_succ_of_lt (hbs q hq)
  | response rq b =>
      by_cases hin : rq ∈ s.pending
      · simp only [dapStep, if_pos hin]
        refine ⟨hnd.erase rq, ?_, ?_, ?_, ?_, by rw [ht]⟩
        · rw [List.map_append, List.nodup_append]
          refine ⟨hndS, by simp, ?_⟩
          intro a ha hb
          simp only [List.map_cons, List.map_nil, List.mem_singleton] at hb
          exact hdisj rq hin (hb ▸ ha)
        · intro q hq
          have hq' : q ∈ s.pending := List.mem_of_mem_erase hq
          have hqne : q ≠ rq := ((List.Nodup.mem_erase_iff hnd).mp hq).1
          rw [List.map_append, List.mem_append]
          rintro (hmem | hmem)
          · exact hdisj q hq' hmem
          · simp only [List.map_cons, List.map_nil, List.mem_singleton] at hmem
            exact hqne hmem
        · intro q hq
          exact hbp q (List.mem_of_mem_erase hq)
        · intro q hq
          rw [List.map_append, List.mem_append] at hq
          rcases hq with hq | hq
          · exact hbs q hq
          · simp only [List.map_cons, List.map_nil, List.mem_singleton] at hq
            rw [hq]
            exact hbp _ hin
      · simp only [dapStep, if_neg hin]
        exact ⟨hnd, hndS, hdisj, hbp, hbs, ht⟩
  | timeoutFire tq =>
      by_cases htm : tq ∈ s.timers
      · have hin : tq ∈ s.pending := ht ▸ htm
        simp only [dapStep, if_pos htm, if_pos hin]
        refine ⟨hnd.erase tq, ?_, ?_, ?_, ?_, by rw [ht]⟩
        · rw [List.map_append, List.nodup_append]
          refine ⟨hndS, by simp, ?_⟩
          intro a ha hb
          simp only [List.map_cons, List.map_nil, List.mem_singleton] at hb
          exact hdisj tq hin (hb ▸ ha)
        · intro q hq
          have hq' : q ∈ s.pending := List.mem_of_mem_erase hq
          have hqne : q ≠ tq := ((List.Nodup.mem_erase_iff hnd).mp hq).1
          rw [List.map_append, List.mem_append]
          rintro (hmem | hmem)
          · exact hdisj q hq' hmem
          · simp only [List.map_cons, List.map_nil, List.mem_singleton] at hmem
            exact hqne hmem
        · intro q hq
          exact hbp q (List.mem_of_mem_erase hq)
        · intro q hq
          rw [List.map_append, List.mem_append] at hq
          rcases hq with hq | hq
          · exact hbs q hq
          · simp only [List.map_cons, List.map_nil, List.mem_singleton] at hq
            rw [hq]
            exact hbp _ hin
      · simp only [dapStep, if_neg htm]
        exact ⟨hnd, hndS, hdisj, hbp, hbs, ht⟩
  | disconnect =>
      have hmapid : List.map (Prod.fst ∘ fun q => (q, DAPOutcome.rejectedDisconnected))
          s.pending = s.pending := by
        rw [show (Prod.fst ∘ fun q : Nat => (q, DAPOutcome.rejectedDisconnected)) = id
          from rfl, List.map_id]
      refine ⟨List.nodup_nil, ?_, ?_, ?_, ?_, rfl⟩
      · show (List.map Prod.fst (s.settled ++
          s.pending.map (fun q => (q, DAPOutcome.rejectedDisconnected)))).Nodup
        rw [List.map_append, List.map_map, hmapid, List.nodup_append]
        exact ⟨hndS, hnd, fun a ha hb => hdisj a hb ha⟩
      · intro q hq
        exact absurd hq (List.not_mem_nil q)
      · intro q hq
        exact absurd hq (List.not_mem_nil q)
      · intro q hq
        simp only [dapStep] at hq
        rw [List.map_append, List.map_map, hmapid, List.mem_append] at hq
        rcases hq with hq | hq
        · exact hbs q hq
        · exact hbp q hq

theorem dapRunFrom_inv (evs : List DAPEvent) :
    ∀ s : DAPClientState, DAPInv s → DAPInv (dapRunFrom s evs) := by
  induction evs with
  | nil => intro s h; exact h
  | cons e rest ih =>
      intro s h
      exact ih (dapStep s e) (dapStep_inv s e h)

/-- A sequence number ends the run pending or settled exactly when it was
pending, settled, or assigned to a request along the way. -/
theorem dapRunFrom_mem (evs : List DAPEvent) :
    ∀ (s : DAPClientState), DAPInv s → ∀ q : Nat,
      (q ∈ (dapRunFrom s evs).pending ∨
        q ∈ (dapRunFrom s evs).settled.map Prod.fst) ↔
      (q ∈ s.pending ∨ q ∈ s.settled.map Prod.fst ∨
        q ∈ registeredSeqsAux s.nextSeq evs) := by
  induction evs with
  | nil =>
      intro s _ q
      simp [dapRunFrom, registeredSeqsAux]
  | cons e rest ih =>
      intro s hInv q
      have hrun : dapRunFrom s (e :: rest) = dapRunFrom (dapStep s e) rest := rfl
      rw [hrun, ih (dapStep s e) (dapStep_inv s e hInv) q]
      obtain ⟨hnd, hndS, hdisj, hbp, hbs, ht⟩ := hInv
      cases e with
      | sendRequest =>
          simp only [dapStep, registeredSeqsAux, List.mem_append,
            List.mem_singleton, List.mem_cons]
          tauto
      | sendEvent =>
          simp only [dapStep, registeredSeqsAux]
      | response rq b =>
          by_cases hin : rq ∈ s.pending
          · simp only [dapStep, if_pos hin, registeredSeqsAux, List.map_append,
              List.mem_append, List.map_cons, List.map_nil, List.mem_singleton]
            rw [List.Nodup.mem_erase_iff hnd]
            by_cases hq : q = rq
            · subst hq
              tauto
            · tauto
          · simp only [dapStep, if_neg hin, registeredSeqsAux]
      | timeoutFire tq =>
          by_cases htm : tq ∈ s.timers
          · have hin : tq ∈ s.pending := ht ▸ htm
            simp only [dapStep, if_pos htm, if_pos hin, registeredSeqsAux,
              List.map_append, List.mem_append, List.map_cons, List.map_nil,
              List.mem_singleton]
            rw [List.Nodup.mem_erase_iff hnd]
            by_cases hq : q = tq
            · subst hq
              tauto
            · tauto
          · simp only [dapStep, if_neg htm, registeredSeqsAux]
      | disconnect =>
          have hmapid : List.map
              (Prod.fst ∘ fun q => (q, DAPOutcome.rejectedDisconnected))
              s.pending = s.pending := by
            rw [show (Prod.fst ∘ fun q : Nat =>
              (q, DAPOutcome.rejectedDisconnected)) = id from rfl, List.map_id]
          simp only [dapStep, registeredSeqsAux, List.map_append, List.map_map,
            hmapid, List.mem_append, List.not_mem_nil]
          tauto

theorem registeredSeqsAux_append_disconnect :
    ∀ (evs : List DAPEvent) (n : Nat),
      registeredSeqsAux n (evs ++ [.disconnect]) = registeredSeqsAux n evs := by
  intro evs
  induction evs with
  | nil => intro n; rfl
  | cons e rest ih =>
      intro n
      cases e <;> simp only [List.cons_append, registeredSeqsAux, List.append_eq] <;> rw [ih]

/-- C8 (confirmed): every pending DAP request is settled exactly once — the
settled log never repeats a sequence number — and after a trace ending in
teardown the pending map and timer set are empty and the settled sequence
numbers are exactly the ones ever assigned to requests, so no caller awaits
past teardown.  The last three conjuncts give the settlement rules: a
matching response resolves on success and rejects on failure, clearing the
timeout; an armed timeout of a pending request rejects it; teardown rejects
everything still pending (with a disconnected error) and clears all
timeouts. -/
theorem C8_pending_request_settlement (evs : List DAPEvent) :
    (dapRun (evs ++ [.disconnect])).pending = [] ∧
    (dapRun (evs ++ [.disconnect])).timers = [] ∧
    ((dapRun (evs ++ [.disconnect])).settled.map Prod.fst).Nodup ∧
    (∀ q, q ∈ (dapRun (evs ++ [.disconnect])).settled.map Prod.fst ↔
        q ∈ registeredSeqs evs) ∧
    (∀ (t : DAPClientState) (q : Nat) (b : Bool), q ∈ t.pending →
        dapStep t (.response q b) =
          { t with pending := t.pending.erase q, timers := t.timers.erase q,
                   settled := t.settled ++
                     [(q, if b then DAPOutcome.resolved
                          else DAPOutcome.rejectedFailure)] }) ∧
    (∀ (t : DAPClientState) (q : Nat), q ∈ t.timers → q ∈ t.pending →
        dapStep t (.timeoutFire q) =
          { t with pending := t.pending.erase q, timers := t.timers.erase q,
                   settled := t.settled ++ [(q, DAPOutcome.rejectedTimeout)] }) ∧
    (∀ t : DAPClientState, dapStep t .disconnect =
        { t with isShuttingDown := true, socketConnected := false,
                 timers := [],
                 settled := t.settled ++
                   t.pending.map (fun q => (q, DAPOutcome.rejectedDisconnected)),
                 pending := [] }) := by
  have hfold : dapRun (evs ++ [.disconnect]) = dapStep (dapRun evs) .disconnect := by
    unfold dapRun dapRunFrom
    rw [List.foldl_append]
    rfl
  have hpend : (dapRun (evs ++ [.disconnect])).pending = [] := by
    rw [hfold]
    rfl
  have htim : (dapRun (evs ++ [.disconnect])).timers = [] := by
    rw [hfold]
    rfl
  refine ⟨hpend, htim, ?_, ?_, ?_, ?_, fun t => rfl⟩
  · exact (dapRunFrom_inv (evs ++ [.disconnect]) dapInit dapInv_init).2.1
  · intro q
    have hm := dapRunFrom_mem (evs ++ [.disconnect]) dapInit dapInv_init q
    have hrw : dapRunFrom dapInit (evs ++ [DAPEvent.disconnect]) =
        dapRun (evs ++ [DAPEvent.disconnect]) := rfl
    rw [hrw, hpend] at hm
    simp only [dapInit, List.map_nil, List.not_mem_nil, false_or] at hm
    rw [registeredSeqsAux_append_disconnect] at hm
    exact hm
  · intro t q b h
    simp only [dapStep, if_pos h]
  · intro t q ht hp
    simp only [dapStep, if_pos ht, if_pos hp]

/-- Witness for C8 on a concrete trace: request 1 answered, request 2 timed
out, request 3 rejected by teardown. -/
theorem C8_pending_request_settlement_witness :
    (dapRun ([.sendRequest, .response 1 true, .sendRequest, .timeoutFire 2,
        .sendRequest] ++ [.disconnect])).pending = [] ∧
    (3 ∈ (dapRun ([.sendRequest, .response 1 true, .sendRequest, .timeoutFire 2,
        .sendRequest] ++ [.disconnect])).settled.map Prod.fst ↔
      3 ∈ registeredSeqs [.sendRequest, .response 1 true, .sendRequest,
        .timeoutFire 2, .sendRequest]) ∧
    dapStep (dapRunFrom dapInit [.sendRequest]) (.response 1 true) =
      { dapRunFrom dapInit [.sendRequest] with
          pending := (dapRunFrom dapInit [.sendRequest]).pending.erase 1
          timers := (dapRunFrom dapInit [.sendRequest]).timers.erase 1
          settled := (dapRunFrom dapInit [.sendRequest]).settled ++
            [(1, if true then DAPOutcome.resolved
                 else DAPOutcome.rejectedFailure)] } :=
  ⟨(C8_pending_request_settlement [.sendRequest, .response 1 true, .sendRequest,
      .timeoutFire 2, .sendRequest]).1,
   (C8_pending_request_settlement [.sendRequest, .response 1 true, .sendRequest,
      .timeoutFire 2, .sendRequest]).2.2.2.1 3,
   (C8_pending_request_settlement []).2.2.2.2.1
      (dapRunFrom dapInit [.sendRequest]) 1 true (by decide)⟩

end GodotMcp
